import Mathlib

/-!
Shallow embedding of `scripts/setup-supabase.py`, a linear Supabase setup
script: it loads `.env.local`, derives Postgres pooler connection parameters
from the Supabase URL and service-role key, probes connectivity, runs every
`*.sql` file of `supabase/migrations` in sorted order (recording failures but
continuing), verifies the existence of the tables `users`, `articles` and
`workers`, and prints a final summary.  External effects (filesystem,
environment, database) are supplied by a `World` oracle; the script itself is
the function `runScript`, which returns the final outcome together with the
trace of database-connection attempts it makes.
-/

namespace SetupSupabase

/-- Byte-order comparison of characters by code point, as Python compares
the characters of two strings. -/
def lexLe : List Char → List Char → Bool
  | [], _ => true
  | _ :: _, [] => false
  | a :: as, b :: bs =>
    if a.toNat < b.toNat then true
    else if a.toNat = b.toNat then lexLe as bs
    else false

/-- Python string comparison `a <= b`: lexicographic by code point. -/
def strLe (a b : String) : Bool := lexLe a.data b.data

/-- The order `sorted()` uses on the migration file names. -/
def strLeRel (a b : String) : Prop := strLe a b = true

instance : DecidableRel strLeRel := fun a b => inferInstanceAs (Decidable (strLe a b = true))

/-- Characters allowed after the first character of a URL scheme
(`urllib.parse` accepts alphanumerics and the three characters plus,
minus, dot). -/
def isSchemeChar (c : Char) : Bool := c.isAlphanum || c == '+' || c == '-' || c == '.'

/-- Model of how `urllib.parse` strips a leading `scheme:` from a URL: the
text before the first colon must be nonempty, start with a letter and
consist of scheme characters; otherwise the URL is left unchanged. -/
def dropScheme (cs : List Char) : List Char :=
  match cs.findIdx? (fun c => c == ':') with
  | none => cs
  | some i =>
    if 0 < i && (cs.headD ' ').isAlpha && ((cs.take i).drop 1).all isSchemeChar then
      cs.drop (i + 1)
    else cs

/-- Model of `urllib.parse` netloc extraction: present only when the rest of
the URL starts with two slashes, and runs up to the next `/`, `?` or `#`. -/
def takeNetloc : List Char → List Char
  | '/' :: '/' :: rest => rest.takeWhile (fun c => c != '/' && c != '?' && c != '#')
  | _ => []

/-- The part of a netloc after the rightmost `@` (drops userinfo). -/
def afterLastAt (cs : List Char) : List Char :=
  (cs.reverse.takeWhile (fun c => c != '@')).reverse

/-- Model of `urllib.parse` hostname extraction from a netloc: drop userinfo,
cut at the port colon, lowercase; an empty hostname is reported as absent
(`None`).  IPv6 bracket syntax is not modelled. -/
def hostnameOfNetloc (netloc : List Char) : Option (List Char) :=
  let host := ((afterLastAt netloc).takeWhile (fun c => c != ':')).map Char.toLower
  if host.isEmpty then none else some host

/-- Model of `urlparse(url).hostname`. -/
def urlHostname (url : String) : Option String :=
  (hostnameOfNetloc (takeNetloc (dropScheme url.data))).map List.asString

/-- Python `s.split('.')`: split at every dot, keeping empty pieces. -/
def splitOnDot : List Char → List (List Char)
  | [] => [[]]
  | c :: rest =>
    if c = '.' then [] :: splitOnDot rest
    else
      match splitOnDot rest with
      | [] => [[c]]
      | h :: t => (c :: h) :: t

/-- `project_ref = parsed.hostname.split('.')[0]`.  When the parse yields no
hostname the attribute access raises, which the surrounding bare handler
catches; this is modelled as `none`. -/
def extractProjectRef (url : String) : Option String :=
  (urlHostname url).map (fun h => ((splitOnDot h.data).headD []).asString)

/-- The spec's phrasing of the derived identifier: the first dot-separated
label of the hostname, i.e. the characters before the first dot. -/
def firstLabel (h : String) : String := (h.data.takeWhile (fun c => c != '.')).asString

/-- Python truthiness of an optional environment value: unset and the empty
string are falsy. -/
def truthy : Option String → Bool
  | none => false
  | some s => !s.data.isEmpty

/-- The parameter tuple handed to every `psycopg2.connect` call. -/
structure ConnParams where
  host : String
  port : Nat
  database : String
  user : String
  password : String
  sslmode : String
deriving DecidableEq, Repr

/-- `db_host`/`db_port`/`db_name`/`db_user`/`db_password` plus the
`sslmode='require'` argument, derived once after URL parsing. -/
def mkConnParams (project_ref key : String) : ConnParams :=
  { host := "aws-0-us-west-1.pooler.supabase.com"
    port := 6543
    database := "postgres"
    user := "postgres." ++ project_ref
    password := key
    sslmode := "require" }

/-- How a single migration file's processing ends: success, a
`psycopg2.Error`, or any other exception (e.g. an unreadable file). -/
inductive MigOutcome where
  | ok
  | dbError
  | otherError
deriving DecidableEq, Repr

/-- The external world the script runs against: filesystem facts, the two
environment values, and the database's responses. -/
structure World where
  envFileExists : Bool
  supabaseUrl : Option String
  serviceRoleKey : Option String
  probeOk : Bool
  migrationDirExists : Bool
  sqlFiles : List String
  migOutcome : String → MigOutcome
  verifyConnectOk : Bool
  verifyQueryRaises : String → Bool
  tableExistsInDb : String → Bool

def envUrl (w : World) : String := w.supabaseUrl.getD ""

def envKey (w : World) : String := w.serviceRoleKey.getD ""

/-- `sorted(migration_dir.glob("*.sql"))`: the `.sql` entries sorted by
Python string comparison. -/
def sortedMigrationFiles (w : World) : List String :=
  List.insertionSort strLeRel w.sqlFiles

/-- The migration loop: on success the accumulator is unchanged, on either
exception the filename is appended and the loop continues with the next
file. -/
def failed_migrations_loop (w : World) (acc : List String) : List String → List String
  | [] => acc
  | f :: fs =>
    if w.migOutcome f = MigOutcome.ok then failed_migrations_loop w acc fs
    else failed_migrations_loop w (acc ++ [f]) fs

/-- `failed_migrations` after the whole loop has run over `files`. -/
def failed_migrations (w : World) (files : List String) : List String :=
  failed_migrations_loop w [] files

/-- The three expected tables. -/
def tables_to_check : List String := ["users", "articles", "workers"]

/-- The verification loop body: a raising existence query aborts the loop
(the `psycopg2.Error` is caught outside it), a `False` result appends the
table name to `missing_tables`. -/
def checkTablesLoop (w : World) (acc : List String) : List String → List String
  | [] => acc
  | t :: ts =>
    if w.verifyQueryRaises t then acc
    else if w.tableExistsInDb t then checkTablesLoop w acc ts
    else checkTablesLoop w (acc ++ [t]) ts

/-- `missing_tables` after the verification step: if the verification
connection itself raises, the list stays empty; otherwise the loop runs
until done or until a query raises. -/
def missing_tables (w : World) : List String :=
  if w.verifyConnectOk then checkTablesLoop w [] tables_to_check else []

/-- The final console summary: the success banner, or the error banner
carrying the failed migration names and the missing table names it
prints. -/
inductive Summary where
  | successBanner
  | errorBanner (failed missing : List String)
deriving DecidableEq, Repr

/-- `if not missing_tables and not failed_migrations:` — success banner
exactly when both lists are empty. -/
def finalSummary (failed missing : List String) : Summary :=
  if missing.isEmpty && failed.isEmpty then Summary.successBanner
  else Summary.errorBanner failed missing

/-- Which fatal precondition aborted the run with `sys.exit(1)`. -/
inductive FatalStage where
  | noEnvFile
  | missingVars
  | urlParseError
  | probeFailed
  | noMigDir
  | noSqlFiles
deriving DecidableEq, Repr

/-- The run's outcome: an early `sys.exit(1)`, or falling off the end of the
script after printing the summary. -/
inductive RunResult where
  | fatal (stage : FatalStage)
  | completed (failed missing : List String) (summary : Summary)
deriving DecidableEq, Repr

/-- The process exit status: 1 for the fatal preconditions, 0 (implicit) on
normal completion. -/
def exitCode : RunResult → Nat
  | RunResult.fatal _ => 1
  | RunResult.completed _ _ _ => 0

/-- One `psycopg2.connect` attempt: the probe, a migration file's
connection, or the verification connection, each recording the parameter
tuple passed. -/
inductive ConnEvent where
  | probe (p : ConnParams)
  | migration (file : String) (p : ConnParams)
  | verify (p : ConnParams)
deriving DecidableEq, Repr

/-- The parameter tuple a connection event used. -/
def eventParams : ConnEvent → ConnParams
  | ConnEvent.probe p => p
  | ConnEvent.migration _ p => p
  | ConnEvent.verify p => p

/-- The filename of a migration connection event, if it is one. -/
def migrationEventFile : ConnEvent → Option String
  | ConnEvent.migration f _ => some f
  | _ => none

/-- The whole script, top to bottom: env-file check, required-variable
check, URL parse, parameter derivation, connectivity probe, migration
directory and file checks, migration loop, table verification, final
summary.  Returns the outcome and the trace of connection attempts. -/
def runScript (w : World) : RunResult × List ConnEvent :=
  if w.envFileExists = false then (RunResult.fatal FatalStage.noEnvFile, [])
  else if (truthy w.supabaseUrl && truthy w.serviceRoleKey) = false then
    (RunResult.fatal FatalStage.missingVars, [])
  else
    match extractProjectRef (envUrl w) with
    | none => (RunResult.fatal FatalStage.urlParseError, [])
    | some project_ref =>
      let p := mkConnParams project_ref (envKey w)
      if w.probeOk = false then (RunResult.fatal FatalStage.probeFailed, [ConnEvent.probe p])
      else if w.migrationDirExists = false then
        (RunResult.fatal FatalStage.noMigDir, [ConnEvent.probe p])
      else
        let files := sortedMigrationFiles w
        if files.isEmpty then (RunResult.fatal FatalStage.noSqlFiles, [ConnEvent.probe p])
        else
          let failed := failed_migrations w files
          let missing := missing_tables w
          (RunResult.completed failed missing (finalSummary failed missing),
            ConnEvent.probe p ::
              (files.map (fun f => ConnEvent.migration f p) ++ [ConnEvent.verify p]))

/-- The conjunction of the fatal preconditions: env file present, both
variables truthy, URL parseable to a project reference, probe successful,
migration directory present and at least one `.sql` file found. -/
def fatalPreconditionsOk (w : World) : Prop :=
  w.envFileExists = true ∧
  (truthy w.supabaseUrl && truthy w.serviceRoleKey) = true ∧
  (extractProjectRef (envUrl w)).isSome = true ∧
  w.probeOk = true ∧
  w.migrationDirExists = true ∧
  w.sqlFiles ≠ []

/-- A base world in which every fatal precondition passes, all migrations
succeed and all tables exist. -/
def baseWorld : World :=
  { envFileExists := true
    supabaseUrl := some "https://abcxyz.supabase.co"
    serviceRoleKey := some "secret-key"
    probeOk := true
    migrationDirExists := true
    sqlFiles := ["001_a.sql"]
    migOutcome := fun _ => MigOutcome.ok
    verifyConnectOk := true
    verifyQueryRaises := fun _ => false
    tableExistsInDb := fun _ => true }

/-- World where no table exists in the database but the verification
connection itself raises a database error. -/
def wVerifyConnFails : World :=
  { baseWorld with
    verifyConnectOk := false
    tableExistsInDb := fun _ => false }

/-- World where all tables exist but the single migration fails with a
database error. -/
def wMigFails : World :=
  { baseWorld with
    migOutcome := fun _ => MigOutcome.dbError }

/-- World with three migration files of which the second raises a database
error and the third a non-database exception. -/
def wTwoFail : World :=
  { baseWorld with
    sqlFiles := ["001_a.sql", "002_b.sql", "003_c.sql"]
    migOutcome := fun f =>
      if f = "002_b.sql" then MigOutcome.dbError
      else if f = "003_c.sql" then MigOutcome.otherError
      else MigOutcome.ok }

/-- World whose migration directory lists the two files out of order. -/
def wUnsorted : World :=
  { baseWorld with sqlFiles := ["002_b.sql", "001_a.sql"] }

/-- World with no `.env.local` file. -/
def wNoEnv : World :=
  { baseWorld with envFileExists := false }

/-- World whose URL value lacks a scheme, so parsing yields no hostname. -/
def wBadUrl : World :=
  { baseWorld with supabaseUrl := some "abcxyz.supabase.co" }

/-- World where the table `articles` is missing and the verification step
completes without error. -/
def wArticlesMissing : World :=
  { baseWorld with
    tableExistsInDb := fun t => t != "articles" }

theorem lexLe_cons_iff {x y : Char} {xs ys : List Char} :
    lexLe (x :: xs) (y :: ys) = true ↔
      x.toNat < y.toNat ∨ (x.toNat = y.toNat ∧ lexLe xs ys = true) := by
  simp only [lexLe]
  by_cases h1 : x.toNat < y.toNat
  · simp [h1]
  · by_cases h2 : x.toNat = y.toNat
    · simp [h1, h2]
    · simp [h1, h2]

theorem lexLe_total : ∀ a b : List Char, lexLe a b = true ∨ lexLe b a = true
  | [], _ => Or.inl rfl
  | _ :: _, [] => Or.inr rfl
  | x :: xs, y :: ys => by
    rcases Nat.lt_trichotomy x.toNat y.toNat with h | h | h
    · exact Or.inl (lexLe_cons_iff.mpr (Or.inl h))
    · rcases lexLe_total xs ys with h2 | h2
      · exact Or.inl (lexLe_cons_iff.mpr (Or.inr ⟨h, h2⟩))
      · exact Or.inr (lexLe_cons_iff.mpr (Or.inr ⟨h.symm, h2⟩))
    · exact Or.inr (lexLe_cons_iff.mpr (Or.inl h))

theorem lexLe_trans : ∀ a b c : List Char,
    lexLe a b = true → lexLe b c = true → lexLe a c = true
  | [], _, _, _, _ => rfl
  | _ :: _, [], _, h, _ => by simp [lexLe] at h
  | _ :: _, _ :: _, [], _, h2 => by simp [lexLe] at h2
  | x :: xs, y :: ys, z :: zs, h1, h2 => by
    rcases lexLe_cons_iff.mp h1 with hxy | ⟨hxy, hrest1⟩ <;>
      rcases lexLe_cons_iff.mp h2 with hyz | ⟨hyz, hrest2⟩
    · exact lexLe_cons_iff.mpr (Or.inl (by omega))
    · exact lexLe_cons_iff.mpr (Or.inl (by omega))
    · exact lexLe_cons_iff.mpr (Or.inl (by omega))
    · exact lexLe_cons_iff.mpr (Or.inr ⟨by omega, lexLe_trans xs ys zs hrest1 hrest2⟩)

instance : IsTotal String strLeRel := ⟨fun a b => lexLe_total a.data b.data⟩

instance : IsTrans String strLeRel := ⟨fun a b c => lexLe_trans a.data b.data c.data⟩

theorem sortedMigrationFiles_sorted (w : World) :
    (sortedMigrationFiles w).Sorted strLeRel :=
  List.sorted_insertionSort strLeRel w.sqlFiles

theorem sortedMigrationFiles_perm (w : World) :
    (sortedMigrationFiles w).Perm w.sqlFiles :=
  List.perm_insertionSort strLeRel w.sqlFiles

theorem sortedMigrationFiles_eq_nil_iff (w : World) :
    sortedMigrationFiles w = [] ↔ w.sqlFiles = [] := by
  rw [← List.length_eq_zero, ← List.length_eq_zero,
    (sortedMigrationFiles_perm w).length_eq]

theorem splitOnDot_ne_nil : ∀ cs : List Char, splitOnDot cs ≠ []
  | [] => by simp [splitOnDot]
  | c :: rest => by
    by_cases h : c = '.'
    · simp [splitOnDot, h]
    · simp only [splitOnDot, if_neg h]
      cases hs : splitOnDot rest <;> simp

theorem splitOnDot_headD : ∀ cs : List Char,
    (splitOnDot cs).headD [] = cs.takeWhile (fun c => c != '.')
  | [] => rfl
  | c :: rest => by
    by_cases h : c = '.'
    · simp [splitOnDot, h, List.takeWhile_cons]
    · simp only [splitOnDot, if_neg h]
      cases hs : splitOnDot rest with
      | nil => exact absurd hs (splitOnDot_ne_nil rest)
      | cons hd tl =>
        have ih := splitOnDot_headD rest
        rw [hs] at ih
        simp only [List.headD_cons] at ih
        simp [List.takeWhile_cons, h, ih]

theorem failed_migrations_loop_eq (w : World) :
    ∀ (files acc : List String),
      failed_migrations_loop w acc files =
        acc ++ files.filter (fun f => !decide (w.migOutcome f = MigOutcome.ok))
  | [], acc => by simp [failed_migrations_loop]
  | f :: fs, acc => by
    by_cases h : w.migOutcome f = MigOutcome.ok
    · simp [failed_migrations_loop, h, failed_migrations_loop_eq w fs acc]
    · simp [failed_migrations_loop, h, failed_migrations_loop_eq w fs (acc ++ [f])]

theorem failed_migrations_eq_filter (w : World) (files : List String) :
    failed_migrations w files =
      files.filter (fun f => !decide (w.migOutcome f = MigOutcome.ok)) := by
  simp [failed_migrations, failed_migrations_loop_eq]

theorem checkTablesLoop_eq (w : World) :
    ∀ (ts acc : List String), (∀ t ∈ ts, w.verifyQueryRaises t = false) →
      checkTablesLoop w acc ts = acc ++ ts.filter (fun t => !w.tableExistsInDb t)
  | [], acc, _ => by simp [checkTablesLoop]
  | t :: ts, acc, h => by
    have h1 : w.verifyQueryRaises t = false := h t (by simp)
    have h2 : ∀ u ∈ ts, w.verifyQueryRaises u = false := fun u hu => h u (by simp [hu])
    by_cases he : w.tableExistsInDb t = true
    · simp [checkTablesLoop, h1, he, checkTablesLoop_eq w ts acc h2]
    · have he' : w.tableExistsInDb t = false := by revert he; cases w.tableExistsInDb t <;> simp
      simp [checkTablesLoop, h1, he', checkTablesLoop_eq w ts (acc ++ [t]) h2]

theorem runScript_completed {w : World} {failed missing : List String} {s : Summary}
    {tr : List ConnEvent}
    (h : runScript w = (RunResult.completed failed missing s, tr)) :
    ∃ ref, extractProjectRef (envUrl w) = some ref ∧
      failed = failed_migrations w (sortedMigrationFiles w) ∧
      missing = missing_tables w ∧
      s = finalSummary failed missing ∧
      tr = ConnEvent.probe (mkConnParams ref (envKey w)) ::
        ((sortedMigrationFiles w).map
            (fun f => ConnEvent.migration f (mkConnParams ref (envKey w))) ++
          [ConnEvent.verify (mkConnParams ref (envKey w))]) := by
  unfold runScript at h
  split at h
  · simp at h
  · split at h
    · simp at h
    · split at h
      · simp at h
      · rename_i project_ref heq
        split at h
        · simp at h
        · split at h
          · simp at h
          · dsimp only at h
            split at h
            · simp at h
            · simp only [Prod.mk.injEq, RunResult.completed.injEq] at h
              obtain ⟨⟨hf, hm, hs⟩, ht⟩ := h
              exact ⟨project_ref, heq, hf.symm, hm.symm,
                by rw [← hs, ← hf, ← hm], ht.symm⟩

theorem runScript_of_ok {w : World} (h : fatalPreconditionsOk w) :
    ∃ failed missing s tr,
      runScript w = (RunResult.completed failed missing s, tr) := by
  obtain ⟨h1, h2, h3, h4, h5, h6⟩ := h
  obtain ⟨ref, href⟩ := Option.isSome_iff_exists.mp h3
  have hne : sortedMigrationFiles w ≠ [] :=
    fun hnil => h6 ((sortedMigrationFiles_eq_nil_iff w).mp hnil)
  have hfiles : (sortedMigrationFiles w).isEmpty = false := by
    cases hl : sortedMigrationFiles w with
    | nil => exact absurd hl hne
    | cons a l => rfl
  exact ⟨failed_migrations w (sortedMigrationFiles w), missing_tables w,
    finalSummary (failed_migrations w (sortedMigrationFiles w)) (missing_tables w),
    ConnEvent.probe (mkConnParams ref (envKey w)) ::
      ((sortedMigrationFiles w).map
          (fun f => ConnEvent.migration f (mkConnParams ref (envKey w))) ++
        [ConnEvent.verify (mkConnParams ref (envKey w))]),
    by simp [runScript, h1, h2, href, h4, h5, hfiles]⟩

theorem runScript_cases (w : World) :
    (fatalPreconditionsOk w ∧
      ∃ failed missing s tr, runScript w = (RunResult.completed failed missing s, tr)) ∨
    (¬ fatalPreconditionsOk w ∧ ∃ st tr, runScript w = (RunResult.fatal st, tr)) := by
  by_cases h1 : w.envFileExists = true
  · by_cases h2 : (truthy w.supabaseUrl && truthy w.serviceRoleKey) = true
    · cases href : extractProjectRef (envUrl w) with
      | none =>
        right
        refine ⟨fun hok => ?_, FatalStage.urlParseError, [], by simp [runScript, h1, h2, href]⟩
        obtain ⟨-, -, h3, -⟩ := hok
        rw [href] at h3
        simp at h3
      | some ref =>
        by_cases h4 : w.probeOk = true
        · by_cases h5 : w.migrationDirExists = true
          · by_cases h6 : w.sqlFiles = []
            · right
              have hfiles : (sortedMigrationFiles w).isEmpty = true := by
                rw [(sortedMigrationFiles_eq_nil_iff w).mpr h6]
                rfl
              refine ⟨fun hok => ?_, FatalStage.noSqlFiles,
                [ConnEvent.probe (mkConnParams ref (envKey w))],
                by simp [runScript, h1, h2, href, h4, h5, hfiles]⟩
              obtain ⟨-, -, -, -, -, h6'⟩ := hok
              exact h6' h6
            · left
              have hok : fatalPreconditionsOk w :=
                ⟨h1, h2, by rw [href]; rfl, h4, h5, h6⟩
              exact ⟨hok, runScript_of_ok hok⟩
          · have h5' : w.migrationDirExists = false := by
              revert h5; cases w.migrationDirExists <;> simp
            right
            refine ⟨fun hok => ?_, FatalStage.noMigDir,
              [ConnEvent.probe (mkConnParams ref (envKey w))],
              by simp [runScript, h1, h2, href, h4, h5']⟩
            obtain ⟨-, -, -, -, h5'', -⟩ := hok
            rw [h5''] at h5'
            simp at h5'
        · have h4' : w.probeOk = false := by
            revert h4; cases w.probeOk <;> simp
          right
          refine ⟨fun hok => ?_, FatalStage.probeFailed,
            [ConnEvent.probe (mkConnParams ref (envKey w))],
            by simp [runScript, h1, h2, href, h4']⟩
          obtain ⟨-, -, -, h4'', -, -⟩ := hok
          rw [h4''] at h4'
          simp at h4'
    · have h2' : (truthy w.supabaseUrl && truthy w.serviceRoleKey) = false := by
        revert h2; cases (truthy w.supabaseUrl && truthy w.serviceRoleKey) <;> simp
      right
      refine ⟨fun hok => ?_, FatalStage.missingVars, [], by simp [runScript, h1, h2']⟩
      obtain ⟨-, h2'', -⟩ := hok
      rw [h2''] at h2'
      simp at h2'
  · have h1' : w.envFileExists = false := by
      revert h1; cases w.envFileExists <;> simp
    right
    refine ⟨fun hok => ?_, FatalStage.noEnvFile, [], by simp [runScript, h1']⟩
    obtain ⟨h1'', -⟩ := hok
    rw [h1''] at h1'
    simp at h1'

theorem finalSummary_eq_error_of_ne {failed missing : List String}
    (h : missing ≠ [] ∨ failed ≠ []) :
    finalSummary failed missing = Summary.errorBanner failed missing := by
  unfold finalSummary
  rcases h with h | h
  · cases missing with
    | nil => exact absurd rfl h
    | cons a l => rfl
  · cases failed with
    | nil => exact absurd rfl h
    | cons a l =>
      cases missing with
      | nil => rfl
      | cons b m => rfl

theorem finalSummary_eq_success_iff {failed missing : List String} :
    finalSummary failed missing = Summary.successBanner ↔ (failed = [] ∧ missing = []) := by
  constructor
  · intro h
    by_cases hm : missing = []
    · by_cases hf : failed = []
      · exact ⟨hf, hm⟩
      · rw [finalSummary_eq_error_of_ne (Or.inr hf)] at h
        exact absurd h (by simp)
    · rw [finalSummary_eq_error_of_ne (Or.inl hm)] at h
      exact absurd h (by simp)
  · rintro ⟨hf, hm⟩
    rw [hf, hm]
    rfl

/-- C1 counterexample.  First conjunct: in `wVerifyConnFails` none of the
expected tables exists, yet because the verification connection raises a
database error the run still prints the success banner with an empty
missing-table list.  Second conjunct: in `wMigFails` all three tables exist,
yet the summary is the error banner because a migration failed. -/
theorem C1_counterexample :
    (wVerifyConnFails.tableExistsInDb "users" = false ∧
      wVerifyConnFails.verifyConnectOk = false ∧
      (runScript wVerifyConnFails).1 =
        RunResult.completed [] [] Summary.successBanner) ∧
    (wMigFails.tableExistsInDb "users" = true ∧
      wMigFails.tableExistsInDb "articles" = true ∧
      wMigFails.tableExistsInDb "workers" = true ∧
      (runScript wMigFails).1 =
        RunResult.completed ["001_a.sql"] []
          (Summary.errorBanner ["001_a.sql"] [])) := by
  decide

/-- C1 (amended): for every run reaching the verification step in which the
verification connection succeeds and no existence query raises, the reported
missing-table list is exactly the set of expected tables absent from the
database; if all three exist and no migration failed the summary is the
success banner, and if any is missing the summary is the error banner
carrying the failed and missing lists and is not the success banner.  (The
claim's extension to runs whose verification step raises a database error is
refuted by the counterexample: there the missing list stays empty and a
success banner can appear despite missing tables.) -/
theorem C1_amended_verification_summary (w : World) (failed missing : List String)
    (s : Summary) (tr : List ConnEvent)
    (hrun : runScript w = (RunResult.completed failed missing s, tr))
    (hconn : w.verifyConnectOk = true)
    (hq : ∀ t ∈ tables_to_check, w.verifyQueryRaises t = false) :
    missing = tables_to_check.filter (fun t => !w.tableExistsInDb t) ∧
    ((∀ t ∈ tables_to_check, w.tableExistsInDb t = true) → failed = [] →
      s = Summary.successBanner) ∧
    ((∃ t ∈ tables_to_check, w.tableExistsInDb t = false) →
      s = Summary.errorBanner failed missing ∧ s ≠ Summary.successBanner) := by
  obtain ⟨ref, href, hf, hm, hs, ht⟩ := runScript_completed hrun
  have hmt : missing_tables w =
      tables_to_check.filter (fun t => !w.tableExistsInDb t) := by
    simp [missing_tables, hconn, checkTablesLoop_eq w tables_to_check [] hq]
  refine ⟨by rw [hm, hmt], ?_, ?_⟩
  · intro hall hfe
    have hmiss : missing = [] := by
      rw [hm, hmt, List.filter_eq_nil_iff]
      intro t htl
      simp [hall t htl]
    rw [hs, hfe, hmiss]
    rfl
  · rintro ⟨t, htl, hte⟩
    have hmiss : missing ≠ [] := by
      rw [hm, hmt]
      intro hnil
      have := List.filter_eq_nil_iff.mp hnil t htl
      simp [hte] at this
    have hserr : s = Summary.errorBanner failed missing := by
      rw [hs]
      exact finalSummary_eq_error_of_ne (Or.inl hmiss)
    exact ⟨hserr, by rw [hserr]; simp⟩

/-- C1 witness: in `wArticlesMissing` the verification completes without
error, the missing list is exactly the filter of absent tables, and the
summary is not the success banner. -/
theorem C1_witness :
    (["articles"] : List String) =
      tables_to_check.filter (fun t => !wArticlesMissing.tableExistsInDb t) ∧
    Summary.errorBanner [] ["articles"] ≠ Summary.successBanner := by
  have h1 : (runScript wArticlesMissing).1 =
      RunResult.completed [] ["articles"] (Summary.errorBanner [] ["articles"]) := by
    decide
  have hrun : runScript wArticlesMissing =
      (RunResult.completed [] ["articles"] (Summary.errorBanner [] ["articles"]),
        (runScript wArticlesMissing).2) := by
    rw [← h1]
  obtain ⟨hm, -, hc⟩ := C1_amended_verification_summary wArticlesMissing [] ["articles"]
    (Summary.errorBanner [] ["articles"]) (runScript wArticlesMissing).2 hrun rfl
    (by decide)
  exact ⟨hm, (hc ⟨"articles", by decide, by decide⟩).2⟩

/-- C2: on a completed run, the failed-migration list is exactly the sorted
file list filtered to the files whose processing raised (database error or
any other exception) — so every failure is recorded, the loop continues past
failures in order, and earlier successes are unaffected — and the
verification step is still attempted after the loop (it determines the
reported missing list and its connection is the last trace event). -/
theorem C2_failures_recorded_loop_continues (w : World) (failed missing : List String)
    (s : Summary) (tr : List ConnEvent)
    (hrun : runScript w = (RunResult.completed failed missing s, tr)) :
    failed = (sortedMigrationFiles w).filter
        (fun f => !decide (w.migOutcome f = MigOutcome.ok)) ∧
    missing = missing_tables w ∧
    ∃ p, tr = ConnEvent.probe p ::
        ((sortedMigrationFiles w).map (fun f => ConnEvent.migration f p) ++
          [ConnEvent.verify p]) := by
  obtain ⟨ref, href, hf, hm, hs, ht⟩ := runScript_completed hrun
  exact ⟨by rw [hf, failed_migrations_eq_filter], hm,
    ⟨mkConnParams ref (envKey w), ht⟩⟩

/-- C2 witness: with three files of which the second raises a database error
and the third another exception, exactly those two are recorded, in order. -/
theorem C2_witness :
    (["002_b.sql", "003_c.sql"] : List String) =
      (sortedMigrationFiles wTwoFail).filter
        (fun f => !decide (wTwoFail.migOutcome f = MigOutcome.ok)) := by
  have h1 : (runScript wTwoFail).1 =
      RunResult.completed ["002_b.sql", "003_c.sql"] []
        (Summary.errorBanner ["002_b.sql", "003_c.sql"] []) := by
    decide
  have hrun : runScript wTwoFail =
      (RunResult.completed ["002_b.sql", "003_c.sql"] []
        (Summary.errorBanner ["002_b.sql", "003_c.sql"] []),
        (runScript wTwoFail).2) := by
    rw [← h1]
  exact (C2_failures_recorded_loop_continues wTwoFail _ _ _ _ hrun).1

/-- C3: the process exit status is 0 exactly when all fatal preconditions
pass (env file present, both variables truthy, URL parseable, probe
successful, migration directory present, at least one `.sql` file), even
when migrations failed or tables are missing; status 1 occurs exactly when
some fatal precondition fails. -/
theorem C3_exit_code (w : World) :
    (exitCode (runScript w).1 = 0 ↔ fatalPreconditionsOk w) ∧
    (exitCode (runScript w).1 = 1 ↔ ¬ fatalPreconditionsOk w) := by
  rcases runScript_cases w with ⟨hok, f, m, s, tr, hr⟩ | ⟨hnok, st, tr, hr⟩
  · rw [hr]
    simp [exitCode, hok]
  · rw [hr]
    simp [exitCode, hnok]

/-- C3 witness: a run whose only migration fails still exits with status 0. -/
theorem C3_witness :
    (runScript wMigFails).1 =
      RunResult.completed ["001_a.sql"] [] (Summary.errorBanner ["001_a.sql"] []) ∧
    exitCode (runScript wMigFails).1 = 0 := by
  refine ⟨by decide, ?_⟩
  exact (C3_exit_code wMigFails).1.mpr
    ⟨rfl, by decide, by decide, rfl, rfl, by decide⟩

/-- C4: on every completed run the summary is the success banner iff both
the failed-migration list and the missing-table list are empty; otherwise it
is the error banner carrying every failed filename and every missing table
name. -/
theorem C4_summary_banner (w : World) (failed missing : List String)
    (s : Summary) (tr : List ConnEvent)
    (hrun : runScript w = (RunResult.completed failed missing s, tr)) :
    (s = Summary.successBanner ↔ (failed = [] ∧ missing = [])) ∧
    ((failed ≠ [] ∨ missing ≠ []) → s = Summary.errorBanner failed missing) := by
  obtain ⟨ref, href, hf, hm, hs, ht⟩ := runScript_completed hrun
  constructor
  · rw [hs]
    exact finalSummary_eq_success_iff
  · intro h
    rw [hs]
    exact finalSummary_eq_error_of_ne (h.elim Or.inr Or.inl)

/-- C4 witness: the run with two failed migrations prints the error banner
naming them, and that banner is a success banner only if the failed list
were empty. -/
theorem C4_witness :
    (runScript wTwoFail).1 =
      RunResult.completed ["002_b.sql", "003_c.sql"] []
        (Summary.errorBanner ["002_b.sql", "003_c.sql"] []) ∧
    (Summary.errorBanner ["002_b.sql", "003_c.sql"] [] = Summary.successBanner ↔
      ((["002_b.sql", "003_c.sql"] : List String) = [] ∧ ([] : List String) = [])) := by
  refine ⟨by decide, ?_⟩
  have h1 : (runScript wTwoFail).1 =
      RunResult.completed ["002_b.sql", "003_c.sql"] []
        (Summary.errorBanner ["002_b.sql", "003_c.sql"] []) := by
    decide
  have hrun : runScript wTwoFail =
      (RunResult.completed ["002_b.sql", "003_c.sql"] []
        (Summary.errorBanner ["002_b.sql", "003_c.sql"] []),
        (runScript wTwoFail).2) := by
    rw [← h1]
  exact (C4_summary_banner wTwoFail _ _ _ _ hrun).1

/-- C5: the migration files are attempted in the sorted order of their
names — the attempted list is sorted under the code-point string order, is a
permutation of the directory's `.sql` entries, and on a completed run the
migration connections in the trace occur exactly in that order. -/
theorem C5_sorted_order (w : World) :
    (sortedMigrationFiles w).Sorted strLeRel ∧
    (sortedMigrationFiles w).Perm w.sqlFiles ∧
    ∀ failed missing s tr, runScript w = (RunResult.completed failed missing s, tr) →
      tr.filterMap migrationEventFile = sortedMigrationFiles w := by
  refine ⟨sortedMigrationFiles_sorted w, sortedMigrationFiles_perm w, ?_⟩
  intro failed missing s tr hrun
  obtain ⟨ref, href, hf, hm, hs, ht⟩ := runScript_completed hrun
  rw [ht]
  have hcomp : (migrationEventFile ∘
      fun f => ConnEvent.migration f (mkConnParams ref (envKey w))) = some := rfl
  simp [migrationEventFile, List.filterMap_cons, List.filterMap_append,
    List.filterMap_map, hcomp]

/-- C5 witness: a directory listing `002_b.sql` before `001_a.sql` is
attempted as `001_a.sql` then `002_b.sql`. -/
theorem C5_witness :
    sortedMigrationFiles wUnsorted = ["001_a.sql", "002_b.sql"] ∧
    (sortedMigrationFiles wUnsorted).Sorted strLeRel :=
  ⟨by decide, (C5_sorted_order wUnsorted).1⟩

/-- C6: each fatal precondition failure (missing env file, missing required
variable, unparseable URL, failed probe, missing migration directory, no
`.sql` files) ends the run as the corresponding fatal outcome with exit
status 1; in the missing-env-file, missing-variable and unparseable-URL
cases the connection trace is empty, so no network connection was
attempted. -/
theorem C6_fatal_preconditions (w : World) :
    (w.envFileExists = false →
      runScript w = (RunResult.fatal FatalStage.noEnvFile, []) ∧
      exitCode (runScript w).1 = 1) ∧
    (w.envFileExists = true →
      (truthy w.supabaseUrl && truthy w.serviceRoleKey) = false →
      runScript w = (RunResult.fatal FatalStage.missingVars, []) ∧
      exitCode (runScript w).1 = 1) ∧
    (w.envFileExists = true →
      (truthy w.supabaseUrl && truthy w.serviceRoleKey) = true →
      extractProjectRef (envUrl w) = none →
      runScript w = (RunResult.fatal FatalStage.urlParseError, []) ∧
      exitCode (runScript w).1 = 1) ∧
    (∀ ref, w.envFileExists = true →
      (truthy w.supabaseUrl && truthy w.serviceRoleKey) = true →
      extractProjectRef (envUrl w) = some ref → w.probeOk = false →
      runScript w = (RunResult.fatal FatalStage.probeFailed,
        [ConnEvent.probe (mkConnParams ref (envKey w))]) ∧
      exitCode (runScript w).1 = 1) ∧
    (∀ ref, w.envFileExists = true →
      (truthy w.supabaseUrl && truthy w.serviceRoleKey) = true →
      extractProjectRef (envUrl w) = some ref → w.probeOk = true →
      w.migrationDirExists = false →
      runScript w = (RunResult.fatal FatalStage.noMigDir,
        [ConnEvent.probe (mkConnParams ref (envKey w))]) ∧
      exitCode (runScript w).1 = 1) ∧
    (∀ ref, w.envFileExists = true →
      (truthy w.supabaseUrl && truthy w.serviceRoleKey) = true →
      extractProjectRef (envUrl w) = some ref → w.probeOk = true →
      w.migrationDirExists = true → w.sqlFiles = [] →
      runScript w = (RunResult.fatal FatalStage.noSqlFiles,
        [ConnEvent.probe (mkConnParams ref (envKey w))]) ∧
      exitCode (runScript w).1 = 1) := by
  refine ⟨?_, ?_, ?_, ?_, ?_, ?_⟩
  · intro h1
    have e : runScript w = (RunResult.fatal FatalStage.noEnvFile, []) := by
      simp [runScript, h1]
    exact ⟨e, by rw [e]; rfl⟩
  · intro h1 h2
    have e : runScript w = (RunResult.fatal FatalStage.missingVars, []) := by
      simp [runScript, h1, h2]
    exact ⟨e, by rw [e]; rfl⟩
  · intro h1 h2 href
    have e : runScript w = (RunResult.fatal FatalStage.urlParseError, []) := by
      simp [runScript, h1, h2, href]
    exact ⟨e, by rw [e]; rfl⟩
  · intro ref h1 h2 href h4
    have e : runScript w = (RunResult.fatal FatalStage.probeFailed,
        [ConnEvent.probe (mkConnParams ref (envKey w))]) := by
      simp [runScript, h1, h2, href, h4]
    exact ⟨e, by rw [e]; rfl⟩
  · intro ref h1 h2 href h4 h5
    have e : runScript w = (RunResult.fatal FatalStage.noMigDir,
        [ConnEvent.probe (mkConnParams ref (envKey w))]) := by
      simp [runScript, h1, h2, href, h4, h5]
    exact ⟨e, by rw [e]; rfl⟩
  · intro ref h1 h2 href h4 h5 h6
    have hfiles : (sortedMigrationFiles w).isEmpty = true := by
      rw [(sortedMigrationFiles_eq_nil_iff w).mpr h6]
      rfl
    have e : runScript w = (RunResult.fatal FatalStage.noSqlFiles,
        [ConnEvent.probe (mkConnParams ref (envKey w))]) := by
      simp [runScript, h1, h2, href, h4, h5, hfiles]
    exact ⟨e, by rw [e]; rfl⟩

/-- C6 witness: the missing-env-file world exits fatally with an empty
connection trace. -/
theorem C6_witness :
    runScript wNoEnv = (RunResult.fatal FatalStage.noEnvFile, []) ∧
    exitCode (runScript wNoEnv).1 = 1 :=
  (C6_fatal_preconditions wNoEnv).1 rfl

/-- C7: whenever both required values are truthy and the URL parses to a
hostname, the derived project reference is the first dot-separated label of
that hostname. -/
theorem C7_project_ref (w : World) (host : String)
    (h1 : w.envFileExists = true) (h2 : truthy w.supabaseUrl = true)
    (h3 : truthy w.serviceRoleKey = true)
    (hh : urlHostname (envUrl w) = some host) :
    extractProjectRef (envUrl w) = some (firstLabel host) := by
  unfold extractProjectRef firstLabel
  rw [hh, Option.map_some', splitOnDot_headD]

/-- C7 witness: the URL of the base world parses to hostname
`abcxyz.supabase.co` and yields project reference `abcxyz`. -/
theorem C7_witness :
    urlHostname (envUrl baseWorld) = some "abcxyz.supabase.co" ∧
    extractProjectRef (envUrl baseWorld) = some "abcxyz" := by
  have hh : urlHostname (envUrl baseWorld) = some "abcxyz.supabase.co" := by decide
  have h := C7_project_ref baseWorld "abcxyz.supabase.co" rfl (by decide) (by decide) hh
  have hfl : firstLabel "abcxyz.supabase.co" = "abcxyz" := by decide
  rw [hfl] at h
  exact ⟨hh, h⟩

/-- C8: every connection event of a run (probe, per-file, verification) uses
the single parameter tuple derived from the project reference and the
service-role key — fixed pooler host, port 6543, database `postgres`, user
`postgres.` ++ project reference, password the secret key. -/
theorem C8_uniform_conn_params (w : World) (r : RunResult) (tr : List ConnEvent)
    (ref : String) (hrun : runScript w = (r, tr))
    (href : extractProjectRef (envUrl w) = some ref) :
    ∀ e ∈ tr, eventParams e = mkConnParams ref (envKey w) := by
  unfold runScript at hrun
  split at hrun
  · simp only [Prod.mk.injEq] at hrun
    obtain ⟨-, ht⟩ := hrun
    intro e he
    rw [← ht] at he
    simp at he
  · split at hrun
    · simp only [Prod.mk.injEq] at hrun
      obtain ⟨-, ht⟩ := hrun
      intro e he
      rw [← ht] at he
      simp at he
    · split at hrun
      · simp only [Prod.mk.injEq] at hrun
        obtain ⟨-, ht⟩ := hrun
        intro e he
        rw [← ht] at he
        simp at he
      · rename_i project_ref heq
        rw [heq] at href
        have hpr : project_ref = ref := Option.some.inj href
        subst hpr
        split at hrun
        · simp only [Prod.mk.injEq] at hrun
          obtain ⟨-, ht⟩ := hrun
          intro e he
          rw [← ht] at he
          simp at he
          rw [he]
          rfl
        · split at hrun
          · simp only [Prod.mk.injEq] at hrun
            obtain ⟨-, ht⟩ := hrun
            intro e he
            rw [← ht] at he
            simp at he
            rw [he]
            rfl
          · dsimp only at hrun
            split at hrun
            · simp only [Prod.mk.injEq] at hrun
              obtain ⟨-, ht⟩ := hrun
              intro e he
              rw [← ht] at he
              simp at he
              rw [he]
              rfl
            · simp only [Prod.mk.injEq] at hrun
              obtain ⟨-, ht⟩ := hrun
              intro e he
              rw [← ht] at he
              simp only [List.mem_cons, List.mem_append, List.mem_map,
                List.mem_singleton, List.not_mem_nil, or_false] at he
              rcases he with he | ⟨f, -, he⟩ | he <;> subst he <;> rfl

/-- C8 witness: the probe event of the base world's run carries exactly the
derived parameter tuple. -/
theorem C8_witness :
    eventParams (ConnEvent.probe (mkConnParams "abcxyz" "secret-key")) =
      mkConnParams "abcxyz" "secret-key" :=
  C8_uniform_conn_params baseWorld (runScript baseWorld).1 (runScript baseWorld).2
    "abcxyz" rfl (by decide)
    (ConnEvent.probe (mkConnParams "abcxyz" "secret-key")) (by decide)

/-- C9: at every point of the migration loop (after any processed prefix of
the sorted file list) the failed list is an order-preserving subsequence of
the sorted migration list, and — the directory's entries being distinct — it
contains each attempted filename at most once. -/
theorem C9_failed_subsequence (w : World) (pre suf : List String)
    (hsplit : sortedMigrationFiles w = pre ++ suf) :
    (failed_migrations w pre).Sublist (sortedMigrationFiles w) ∧
    (w.sqlFiles.Nodup → (failed_migrations w pre).Nodup) := by
  have hsub : (failed_migrations w pre).Sublist pre := by
    rw [failed_migrations_eq_filter]
    exact List.filter_sublist pre
  constructor
  · rw [hsplit]
    exact hsub.trans (List.sublist_append_left pre suf)
  · intro hnd
    have hnd2 : (sortedMigrationFiles w).Nodup :=
      ((sortedMigrationFiles_perm w).nodup_iff).mpr hnd
    rw [hsplit] at hnd2
    exact (List.Nodup.of_append_left hnd2).sublist hsub

/-- C9 witness: after the first two of `wTwoFail`'s three files the failed
list so far is a subsequence of the sorted file list. -/
theorem C9_witness :
    (failed_migrations wTwoFail ["001_a.sql", "002_b.sql"]).Sublist
      (sortedMigrationFiles wTwoFail) :=
  (C9_failed_subsequence wTwoFail ["001_a.sql", "002_b.sql"] ["003_c.sql"]
    (by decide)).1

/-- C10: when both required values are truthy but the URL parse yields no
hostname (for example a scheme-less value), the extraction failure is caught
and the run ends as the URL-parse fatal outcome with exit status 1 and an
empty connection trace, i.e. before any network call. -/
theorem C10_no_hostname_fatal (w : World)
    (h1 : w.envFileExists = true) (h2 : truthy w.supabaseUrl = true)
    (h3 : truthy w.serviceRoleKey = true)
    (hh : urlHostname (envUrl w) = none) :
    runScript w = (RunResult.fatal FatalStage.urlParseError, []) ∧
    exitCode (runScript w).1 = 1 := by
  have href : extractProjectRef (envUrl w) = none := by
    unfold extractProjectRef
    rw [hh]
    rfl
  have h2' : (truthy w.supabaseUrl && truthy w.serviceRoleKey) = true := by
    rw [h2, h3]
    rfl
  have e : runScript w = (RunResult.fatal FatalStage.urlParseError, []) := by
    simp [runScript, h1, h2', href]
  exact ⟨e, by rw [e]; rfl⟩

/-- C10 witness: the scheme-less URL `abcxyz.supabase.co` yields no hostname
and the run exits fatally with no connection attempted. -/
theorem C10_witness :
    runScript wBadUrl = (RunResult.fatal FatalStage.urlParseError, []) :=
  (C10_no_hostname_fatal wBadUrl rfl (by decide) (by decide) (by decide)).1

end SetupSupabase
